import Mathlib

/- Shallow embedding of src/torrent/download.cc (class torrent::Download):
   the session lifecycle (start, stop), the service dispatch entry point
   (HASH_COMPLETED, CHOKE_CYCLE), the choke scheduler candidate scans, the
   peer admission step (Download::add_peers) and the resource handling of
   the constructor.  Byte rates and timer values are modelled as Nat: the
   float accumulators of the scan loops hold integral rate values exactly,
   and the FLT_MAX sentinel that the choke scan starts from is modelled by
   an empty accumulator (no candidate seen yet). -/

namespace Torrent

/-- Remote peer identity, as in class Peer (id, dns, port). -/
structure Peer where
  host : String
  port : Nat
  id : String
deriving DecidableEq

/-- Modelled from the spec: Peer::is_same_host is declared in peer.h, which
    is not under src/.  Per the spec, two candidates are the same host when
    host and, by policy, port match (identity is location based, not id
    based). -/
def Peer.is_same_host (a b : Peer) : Bool :=
  a.host == b.host && a.port == b.port

/-- The per-connection data that the choke scheduler and peer admission
    read: the peer identity (PeerConnection::peer), whether our up channel
    has the remote choked (up().c_choked()), whether the remote expressed
    interest (down().c_interested()), the time of the last choke state
    change (lastChoked()) and the throttle byte rates
    (throttle().down().rate(), throttle().up().rate()). -/
structure PeerConnection where
  peer : Peer
  upChoked : Bool
  downInterested : Bool
  lastChoked : Nat
  throttleDownRate : Nat
  throttleUpRate : Nat
deriving DecidableEq

/-- Eligibility test of the unchoke scan in Download::service, CHOKE_CYCLE:
    the connection is currently choked and the remote is interested. -/
def eligibleUnchoke (c : PeerConnection) : Bool :=
  c.upChoked && c.downInterested

/-- The comparison g >= f of the unchoke scan.  The accumulator none stands
    for the initial f = 0, which every Nat rate satisfies. -/
def rateGE (g : Nat) : Option (PeerConnection × Nat) → Bool
  | none => true
  | some pf => decide (pf.2 ≤ g)

/-- One iteration of the unchoke scan loop of Download::service: on an
    eligible connection whose download throttle rate passes g >= f, the
    candidate p2 and the best rate f are both replaced. -/
def unchokeStep (acc : Option (PeerConnection × Nat)) (c : PeerConnection) :
    Option (PeerConnection × Nat) :=
  if eligibleUnchoke c && rateGE c.throttleDownRate acc then
    some (c, c.throttleDownRate)
  else
    acc

/-- The unchoke candidate scan of Download::service (the p2 loop): iterate
    the connection list front to back starting from p2 = NULL, f = 0. -/
def selectUnchokeCandidate (conns : List PeerConnection) :
    Option (PeerConnection × Nat) :=
  conns.foldl unchokeStep none

/-- Eligibility test of the choke scan in Download::service, CHOKE_CYCLE:
    the connection is currently unchoked and its last choke state change is
    strictly older than the grace period
    (lastChoked() + chokeGracePeriod < Timer::cache()). -/
def eligibleChoke (cache grace : Nat) (c : PeerConnection) : Bool :=
  !c.upChoked && decide (c.lastChoked + grace < cache)

/-- The weighted score of the choke scan:
    throttle().down().rate() * 16 + throttle().up().rate(). -/
def chokeScore (c : PeerConnection) : Nat :=
  c.throttleDownRate * 16 + c.throttleUpRate

/-- The comparison g <= f of the choke scan.  The accumulator none stands
    for the initial f = FLT_MAX, which every realizable score satisfies. -/
def scoreLE (g : Nat) : Option (PeerConnection × Nat) → Bool
  | none => true
  | some pf => decide (g ≤ pf.2)

/-- One iteration of the choke scan loop of Download::service: on an
    eligible connection whose weighted score passes g <= f, the candidate
    p1 and the best score f are both replaced. -/
def chokeStep (cache grace : Nat) (acc : Option (PeerConnection × Nat))
    (c : PeerConnection) : Option (PeerConnection × Nat) :=
  if eligibleChoke cache grace c && scoreLE (chokeScore c) acc then
    some (c, chokeScore c)
  else
    acc

/-- The choke candidate scan of Download::service (the p1 loop): iterate
    the connection list front to back starting from p1 = NULL, f = max. -/
def selectChokeCandidate (cache grace : Nat) (conns : List PeerConnection) :
    Option (PeerConnection × Nat) :=
  conns.foldl (chokeStep cache grace) none

/-- The service tags dispatched to Download::service. -/
inductive ServiceType where
  | HASH_COMPLETED
  | CHOKE_CYCLE
deriving DecidableEq

/-- Tracker state events sent through TrackerControl::send_state. -/
inductive TrackerState where
  | started
  | stopped
deriving DecidableEq

/-- Commands issued to the external collaborators: the timer service
    (insertService, removeService), the tracker (sendTrackerState), the
    storage layer (resizeStorage) and a peer connection
    (choke p flag, for p->choke(flag)). -/
inductive Command where
  | insertService (time : Nat) (tag : ServiceType)
  | removeService (tag : ServiceType)
  | sendTrackerState (ts : TrackerState)
  | resizeStorage
  | choke (p : PeerConnection) (flag : Bool)
deriving DecidableEq

/-- The error taxonomy of the code: local_error (MetadataError in the spec)
    and internal_error (InvariantViolation in the spec). -/
inductive SessionError where
  | metadataError (msg : String)
  | invariantViolation (msg : String)
deriving DecidableEq

/-- The slice of Download and DownloadState that the modelled operations
    read and write: m_checked, m_started, the connection list, the chunk
    completion counts and bitfield summary, the canUnchoke() count of the
    external connection pool, the two timer readings (Timer::cache() is the
    tick time, Timer::current() the wall clock) and the two settings. -/
structure Download where
  checked : Bool
  started : Bool
  connections : List PeerConnection
  chunkCompleted : Nat
  chunkCount : Nat
  bitfieldAllSet : Bool
  canUnchoke : Int
  timerCache : Nat
  timerCurrent : Nat
  chokeCycle : Nat
  chokeGracePeriod : Nat
deriving DecidableEq

/-- Download::service.  Returns the list of commands issued to the
    collaborators, in order, and either the updated state or the raised
    error. -/
def Download.service (d : Download) (type : ServiceType) :
    List Command × Except SessionError Download :=
  match type with
  | .HASH_COMPLETED =>
    let d1 : Download := { d with checked := true }
    if d1.chunkCompleted = d1.chunkCount ∧ d1.bitfieldAllSet = false then
      ([Command.resizeStorage],
       Except.error (SessionError.invariantViolation
         "Loaded torrent is done but bitfield is not all set"))
    else
      ([Command.resizeStorage] ++
        (if d1.started then [Command.sendTrackerState TrackerState.started] else []),
       Except.ok d1)
  | .CHOKE_CYCLE =>
    let sched := Command.insertService (d.timerCache + d.chokeCycle)
      ServiceType.CHOKE_CYCLE
    if d.canUnchoke > 0 then
      ([sched], Except.ok d)
    else
      match selectChokeCandidate d.timerCache d.chokeGracePeriod d.connections,
            selectUnchokeCandidate d.connections with
      | some p1, some p2 =>
        ([sched, Command.choke p1.1 true, Command.choke p2.1 false], Except.ok d)
      | _, _ => ([sched], Except.ok d)

/-- Download::start: no-op when already started; otherwise sends the
    started tracker event when already checked, sets m_started and
    schedules the first choke cycle at Timer::current() plus twice the
    choke cycle interval. -/
def Download.start (d : Download) : Download × List Command :=
  if d.started then
    (d, [])
  else
    ({ d with started := true },
     (if d.checked then [Command.sendTrackerState TrackerState.started] else []) ++
       [Command.insertService (d.timerCurrent + d.chokeCycle * 2)
         ServiceType.CHOKE_CYCLE])

/-- Download::stop: no-op when not started; otherwise sends the stopped
    tracker event, clears m_started and cancels the choke cycle timer. -/
def Download.stop (d : Download) : Download × List Command :=
  if d.started then
    ({ d with started := false },
     [Command.sendTrackerState TrackerState.stopped,
      Command.removeService ServiceType.CHOKE_CYCLE])
  else
    (d, [])

/-- The three pools that Download::add_peers deduplicates against: the live
    connections of the state, the process wide in-progress handshakes
    (PeerHandshake::handshakes(), represented by the peer of each) and the
    available peers queue of the state. -/
structure AdmissionState where
  connections : List PeerConnection
  handshakes : List Peer
  availablePeers : List Peer
deriving DecidableEq

/-- The dedup test of Download::add_peers: the candidate is already known
    when some entry of one of the three pools is the same host. -/
def knownPeer (st : AdmissionState) (p : Peer) : Bool :=
  st.connections.any (fun c => c.peer.is_same_host p) ||
  st.handshakes.any (fun q => q.is_same_host p) ||
  st.availablePeers.any (fun q => q.is_same_host p)

/-- One iteration of the Download::add_peers loop: skip a known candidate,
    push an unknown one to the back of the available peers queue. -/
def admitStep (st : AdmissionState) (p : Peer) : AdmissionState :=
  if knownPeer st p then
    st
  else
    { st with availablePeers := st.availablePeers ++ [p] }

/-- Download::add_peers: the candidate loop, front to back over the input
    list.  (The final m_state.connect_peers() call only triggers the
    external connection layer and moves no peer between pools.) -/
def AdmissionState.add_peers (st : AdmissionState) (ps : List Peer) :
    AdmissionState :=
  ps.foldl admitStep st

/-- The net list of candidates that one add_peers call appends, computed by
    replaying the loop: a candidate known at its turn contributes nothing,
    an unknown one is appended and becomes visible to the checks of the
    later candidates.  Proved below to describe add_peers exactly. -/
def addedPeers (st : AdmissionState) : List Peer → List Peer
  | [] => []
  | p :: ps =>
    if knownPeer st p then
      addedPeers st ps
    else
      p :: addedPeers { st with availablePeers := st.availablePeers ++ [p] } ps

/-- Modelled from the spec: bencoded metadata values (the bencode class is
    not under src/); a value is a string, an integer, a list or a
    dictionary. -/
inductive Bencode where
  | str (s : String)
  | int (n : Int)
  | blist (l : List Bencode)
  | dict (entries : List (String × Bencode))

/-- Modelled from the spec: dictionary access b[key] of the bencode class;
    fails with a bencode error on a non-dictionary or a missing key. -/
def Bencode.lookup : Bencode → String → Except String Bencode
  | .dict es, key =>
    match es.find? (fun e => e.1 == key) with
    | some e => Except.ok e.2
    | none => Except.error ("missing key " ++ key)
  | _, _ => Except.error "not a dictionary"

/-- Modelled from the spec: bencode::asString; fails on a non-string. -/
def Bencode.asString : Bencode → Except String String
  | .str s => Except.ok s
  | _ => Except.error "not a string"

/-- The metadata reads of the constructor body before the storage is
    opened: b[info][name].asString(). -/
def metaName (b : Bencode) : Except String String :=
  (b.lookup "info").bind fun info => (info.lookup "name").bind Bencode.asString

/-- The metadata read performed after the tracker handle exists:
    b[announce].asString(). -/
def metaAnnounce (b : Bencode) : Except String String :=
  (b.lookup "announce").bind Bencode.asString

/-- The session fields initialized by the constructor that the lifecycle
    claims read. -/
structure Session where
  name : String
  announceUrl : String
  checked : Bool
  started : Bool
deriving DecidableEq

/-- Resource events of the constructor: opening and closing the storage
    files (openAll, closeAll), allocating and releasing the tracker handle
    (new TrackerControl, delete m_tracker) and scheduling the verification
    pass (FilesCheck::check). -/
inductive ResourceEvent where
  | openStorage
  | closeStorage
  | newTracker
  | deleteTracker
  | scheduleHashCheck
deriving DecidableEq

/-- The observable outcome of one constructor run: the result handed to the
    caller, the resource events in order, and the session registry, which
    the constructor never touches (registration is performed by the caller
    only after a successful return). -/
structure ConstructOutcome where
  result : Except SessionError Session
  events : List ResourceEvent
  registry : List String

/-- The constructor Download::Download(const bencode&).  The name read
    happens before any resource is acquired; the storage is then opened and
    the tracker allocated before the announce url is read.  Both catch
    blocks run closeAll() and delete m_tracker before rethrowing a
    local_error (MetadataError). -/
def constructDownload (b : Bencode) (registry : List String) :
    ConstructOutcome :=
  match metaName b with
  | .error e =>
    { result := Except.error (SessionError.metadataError ("Bad torrent file " ++ e)),
      events := [ResourceEvent.closeStorage, ResourceEvent.deleteTracker],
      registry := registry }
  | .ok name =>
    match metaAnnounce b with
    | .error e =>
      { result := Except.error (SessionError.metadataError ("Bad torrent file " ++ e)),
        events := [ResourceEvent.openStorage, ResourceEvent.newTracker,
                   ResourceEvent.closeStorage, ResourceEvent.deleteTracker],
        registry := registry }
    | .ok url =>
      { result := Except.ok { name := name, announceUrl := url,
                              checked := false, started := false },
        events := [ResourceEvent.openStorage, ResourceEvent.newTracker,
                   ResourceEvent.scheduleHashCheck],
        registry := registry }

/-- Whether a metadata read of the constructor failed. -/
def isParseError : Except String String → Bool
  | .error _ => true
  | .ok _ => false

/-- Malformed metadata: one of the two metadata reads of the constructor
    fails (covering a missing info dictionary, a missing name, a missing
    announce url, or wrong types for any of them). -/
def malformedMeta (b : Bencode) : Bool :=
  isParseError (metaName b) || isParseError (metaAnnounce b)

/-- Every acquired resource was released: in the event list, storage opens
    are matched by closes and tracker allocations by releases. -/
def resourcesReleased (evs : List ResourceEvent) : Bool :=
  decide (evs.count ResourceEvent.openStorage ≤ evs.count ResourceEvent.closeStorage) &&
  decide (evs.count ResourceEvent.newTracker ≤ evs.count ResourceEvent.deleteTracker)

/-- Section 8 scenario, the unchoked connection: score 100
    (16 * 6 + 4) and a last choke change older than the grace period. -/
def scenUnchoked : PeerConnection :=
  { peer := { host := "h0", port := 6881, id := "p0" }, upChoked := false,
    downInterested := false, lastChoked := 0,
    throttleDownRate := 6, throttleUpRate := 4 }

/-- Section 8 scenario, choked and interested connection with rate 1. -/
def scenChoked1 : PeerConnection :=
  { peer := { host := "h1", port := 6881, id := "p1" }, upChoked := true,
    downInterested := true, lastChoked := 0,
    throttleDownRate := 1, throttleUpRate := 0 }

/-- Section 8 scenario, choked and interested connection with rate 2. -/
def scenChoked2 : PeerConnection :=
  { peer := { host := "h2", port := 6881, id := "p2" }, upChoked := true,
    downInterested := true, lastChoked := 0,
    throttleDownRate := 2, throttleUpRate := 0 }

/-- Section 8 scenario, choked and interested connection with rate 3. -/
def scenChoked3 : PeerConnection :=
  { peer := { host := "h3", port := 6881, id := "p3" }, upChoked := true,
    downInterested := true, lastChoked := 0,
    throttleDownRate := 3, throttleUpRate := 0 }

/-- Section 8 scenario, choked and interested connection with rate 4. -/
def scenChoked4 : PeerConnection :=
  { peer := { host := "h4", port := 6881, id := "p4" }, upChoked := true,
    downInterested := true, lastChoked := 0,
    throttleDownRate := 4, throttleUpRate := 0 }

/-- Section 8 scenario connection list: one unchoked, four choked and
    interested with rates one to four. -/
def scenConns : List PeerConnection :=
  [scenUnchoked, scenChoked1, scenChoked2, scenChoked3, scenChoked4]

/-- Section 8 scenario download state, with canUnchoke() = 0, tick time
    1000, choke cycle interval 30 and grace period 100. -/
def scenDownload : Download :=
  { checked := true, started := true, connections := scenConns,
    chunkCompleted := 0, chunkCount := 1, bitfieldAllSet := true,
    canUnchoke := 0, timerCache := 1000, timerCurrent := 5000,
    chokeCycle := 30, chokeGracePeriod := 100 }

/-- A download state with slack (canUnchoke() = 1) over the same
    connections. -/
def slackDownload : Download :=
  { scenDownload with canUnchoke := 1 }

/-- A download state with a choke candidate but no choked-and-interested
    connection. -/
def oneSidedDownload : Download :=
  { scenDownload with connections := [scenUnchoked] }

/-- Two choked and interested connections with equal download throttle
    rates, first of the tie. -/
def tieUnchokeA : PeerConnection :=
  { peer := { host := "ta", port := 1, id := "ia" }, upChoked := true,
    downInterested := true, lastChoked := 0,
    throttleDownRate := 3, throttleUpRate := 0 }

/-- Two choked and interested connections with equal download throttle
    rates, second of the tie. -/
def tieUnchokeB : PeerConnection :=
  { peer := { host := "tb", port := 2, id := "ib" }, upChoked := true,
    downInterested := true, lastChoked := 0,
    throttleDownRate := 3, throttleUpRate := 0 }

/-- Two unchoked grace-expired connections with equal weighted scores
    (16 * 1 + 0 = 16 * 0 + 16), first of the tie. -/
def tieChokeA : PeerConnection :=
  { peer := { host := "tc", port := 3, id := "ic" }, upChoked := false,
    downInterested := false, lastChoked := 0,
    throttleDownRate := 1, throttleUpRate := 0 }

/-- Two unchoked grace-expired connections with equal weighted scores,
    second of the tie. -/
def tieChokeB : PeerConnection :=
  { peer := { host := "td", port := 4, id := "id" }, upChoked := false,
    downInterested := false, lastChoked := 0,
    throttleDownRate := 0, throttleUpRate := 16 }

/-- Admission scenario: empty pools. -/
def emptyAdmission : AdmissionState :=
  { connections := [], handshakes := [], availablePeers := [] }

/-- Admission scenario candidate, host a. -/
def candA : Peer := { host := "a", port := 1, id := "ida" }

/-- Admission scenario candidate, same host and port as candA but another
    id. -/
def candA2 : Peer := { host := "a", port := 1, id := "ida2" }

/-- Admission scenario candidate, host b. -/
def candB : Peer := { host := "b", port := 2, id := "idb" }

/-- Admission scenario candidate, host c. -/
def candC : Peer := { host := "c", port := 3, id := "idc" }

/-- Malformed metadata: an empty dictionary, missing the info dictionary. -/
def noInfoMeta : Bencode := Bencode.dict []

/-- Malformed metadata: an info dictionary with a name but no announce
    url. -/
def noAnnounceMeta : Bencode :=
  Bencode.dict [("info", Bencode.dict [("name", Bencode.str "x")])]

/-- A download state whose completed chunk count equals the chunk count
    while the completion bitfield is not fully set. -/
def badBitfieldDownload : Download :=
  { scenDownload with
    chunkCompleted := 5
    chunkCount := 5
    bitfieldAllSet := false }

/-- Characterization of the unchoke scan: a none result means no eligible
    connection exists; a some result carries an eligible connection and its
    rate, the rate is maximal among the eligible connections, and the
    selected connection is the last eligible connection attaining that rate
    in iteration order. -/
theorem selectUnchokeCandidate_spec (conns : List PeerConnection) :
    (selectUnchokeCandidate conns = none →
      ∀ d ∈ conns, eligibleUnchoke d = false) ∧
    (∀ c f, selectUnchokeCandidate conns = some (c, f) →
      eligibleUnchoke c = true ∧ f = c.throttleDownRate ∧
      (∀ d ∈ conns, eligibleUnchoke d = true →
        d.throttleDownRate ≤ c.throttleDownRate) ∧
      ∃ l1 l2, conns = l1 ++ c :: l2 ∧
        ∀ d ∈ l2, eligibleUnchoke d = true →
          d.throttleDownRate < c.throttleDownRate) := by
  induction conns using List.reverseRecOn with
  | nil =>
    constructor
    · intro _ d hd
      simp at hd
    · intro c f h
      simp [selectUnchokeCandidate] at h
  | append_singleton l x ih =>
    have hfold : selectUnchokeCandidate (l ++ [x]) =
        unchokeStep (selectUnchokeCandidate l) x := by
      simp [selectUnchokeCandidate, List.foldl_append]
    rcases hsel : selectUnchokeCandidate l with _ | ⟨c', f'⟩
    · have hnone := ih.1 hsel
      rw [hfold, hsel]
      by_cases hex : eligibleUnchoke x = true
      · have hstep : unchokeStep none x = some (x, x.throttleDownRate) := by
          simp [unchokeStep, rateGE, hex]
        rw [hstep]
        constructor
        · intro h; simp at h
        · intro c f h
          simp only [Option.some.injEq, Prod.mk.injEq] at h
          obtain ⟨rfl, rfl⟩ := h
          refine ⟨hex, rfl, ?_, l, [], by simp, by simp⟩
          intro d hd hde
          rcases List.mem_append.mp hd with hdl | hdx
          · exact absurd hde (by simp [hnone d hdl])
          · simp at hdx; subst hdx; exact le_refl _
      · have hstep : unchokeStep none x = none := by
          simp [unchokeStep, rateGE, hex]
        rw [hstep]
        constructor
        · intro _ d hd
          rcases List.mem_append.mp hd with hdl | hdx
          · exact hnone d hdl
          · simp at hdx; subst hdx
            exact Bool.eq_false_iff.mpr hex
        · intro c f h; simp at h
    · obtain ⟨hel', hf', hmax', l1, l2, hdec, hstrict⟩ := ih.2 c' f' hsel
      rw [hfold, hsel]
      by_cases hex : eligibleUnchoke x = true
      · by_cases hge : f' ≤ x.throttleDownRate
        · have hstep : unchokeStep (some (c', f')) x =
              some (x, x.throttleDownRate) := by
            simp [unchokeStep, rateGE, hex, hge]
          rw [hstep]
          constructor
          · intro h; simp at h
          · intro c f h
            simp only [Option.some.injEq, Prod.mk.injEq] at h
            obtain ⟨rfl, rfl⟩ := h
            refine ⟨hex, rfl, ?_, l, [], by simp, by simp⟩
            intro d hd hde
            rcases List.mem_append.mp hd with hdl | hdx
            · exact le_trans (hf' ▸ hmax' d hdl hde) hge
            · simp at hdx; subst hdx; exact le_refl _
        · have hstep : unchokeStep (some (c', f')) x = some (c', f') := by
            simp [unchokeStep, rateGE, hex, hge]
          rw [hstep]
          have hxlt : x.throttleDownRate < c'.throttleDownRate :=
            hf' ▸ Nat.lt_of_not_le hge
          constructor
          · intro h; simp at h
          · intro c f h
            simp only [Option.some.injEq, Prod.mk.injEq] at h
            obtain ⟨rfl, rfl⟩ := h
            refine ⟨hel', hf', ?_, l1, l2 ++ [x], by rw [hdec]; simp, ?_⟩
            · intro d hd hde
              rcases List.mem_append.mp hd with hdl | hdx
              · exact hmax' d hdl hde
              · simp at hdx; subst hdx; exact le_of_lt hxlt
            · intro d hd hde
              rcases List.mem_append.mp hd with hdl | hdx
              · exact hstrict d hdl hde
              · simp at hdx; subst hdx; exact hxlt
      · have hstep : unchokeStep (some (c', f')) x = some (c', f') := by
          simp [unchokeStep, hex]
        rw [hstep]
        constructor
        · intro h; simp at h
        · intro c f h
          simp only [Option.some.injEq, Prod.mk.injEq] at h
          obtain ⟨rfl, rfl⟩ := h
          refine ⟨hel', hf', ?_, l1, l2 ++ [x], by rw [hdec]; simp, ?_⟩
          · intro d hd hde
            rcases List.mem_append.mp hd with hdl | hdx
            · exact hmax' d hdl hde
            · simp at hdx; subst hdx; exact absurd hde hex
          · intro d hd hde
            rcases List.mem_append.mp hd with hdl | hdx
            · exact hstrict d hdl hde
            · simp at hdx; subst hdx; exact absurd hde hex

/-- Characterization of the choke scan: a none result means no eligible
    connection exists; a some result carries an eligible connection and its
    weighted score, the score is minimal among the eligible connections,
    and the selected connection is the last eligible connection attaining
    that score in iteration order. -/
theorem selectChokeCandidate_spec (cache grace : Nat)
    (conns : List PeerConnection) :
    (selectChokeCandidate cache grace conns = none →
      ∀ d ∈ conns, eligibleChoke cache grace d = false) ∧
    (∀ c f, selectChokeCandidate cache grace conns = some (c, f) →
      eligibleChoke cache grace c = true ∧ f = chokeScore c ∧
      (∀ d ∈ conns, eligibleChoke cache grace d = true →
        chokeScore c ≤ chokeScore d) ∧
      ∃ l1 l2, conns = l1 ++ c :: l2 ∧
        ∀ d ∈ l2, eligibleChoke cache grace d = true →
          chokeScore c < chokeScore d) := by
  induction conns using List.reverseRecOn with
  | nil =>
    constructor
    · intro _ d hd
      simp at hd
    · intro c f h
      simp [selectChokeCandidate] at h
  | append_singleton l x ih =>
    have hfold : selectChokeCandidate cache grace (l ++ [x]) =
        chokeStep cache grace (selectChokeCandidate cache grace l) x := by
      simp [selectChokeCandidate, List.foldl_append]
    rcases hsel : selectChokeCandidate cache grace l with _ | ⟨c', f'⟩
    · have hnone := ih.1 hsel
      rw [hfold, hsel]
      by_cases hex : eligibleChoke cache grace x = true
      · have hstep : chokeStep cache grace none x = some (x, chokeScore x) := by
          simp [chokeStep, scoreLE, hex]
        rw [hstep]
        constructor
        · intro h; simp at h
        · intro c f h
          simp only [Option.some.injEq, Prod.mk.injEq] at h
          obtain ⟨rfl, rfl⟩ := h
          refine ⟨hex, rfl, ?_, l, [], by simp, by simp⟩
          intro d hd hde
          rcases List.mem_append.mp hd with hdl | hdx
          · exact absurd hde (by simp [hnone d hdl])
          · simp at hdx; subst hdx; exact le_refl _
      · have hstep : chokeStep cache grace none x = none := by
          simp [chokeStep, scoreLE, hex]
        rw [hstep]
        constructor
        · intro _ d hd
          rcases List.mem_append.mp hd with hdl | hdx
          · exact hnone d hdl
          · simp at hdx; subst hdx
            exact Bool.eq_false_iff.mpr hex
        · intro c f h; simp at h
    · obtain ⟨hel', hf', hmin', l1, l2, hdec, hstrict⟩ := ih.2 c' f' hsel
      rw [hfold, hsel]
      by_cases hex : eligibleChoke cache grace x = true
      · by_cases hle : chokeScore x ≤ f'
        · have hstep : chokeStep cache grace (some (c', f')) x =
              some (x, chokeScore x) := by
            simp [chokeStep, scoreLE, hex, hle]
          rw [hstep]
          constructor
          · intro h; simp at h
          · intro c f h
            simp only [Option.some.injEq, Prod.mk.injEq] at h
            obtain ⟨rfl, rfl⟩ := h
            refine ⟨hex, rfl, ?_, l, [], by simp, by simp⟩
            intro d hd hde
            rcases List.mem_append.mp hd with hdl | hdx
            · exact le_trans (hf' ▸ hle) (hmin' d hdl hde)
            · simp at hdx; subst hdx; exact le_refl _
        · have hstep : chokeStep cache grace (some (c', f')) x =
              some (c', f') := by
            simp [chokeStep, scoreLE, hex, hle]
          rw [hstep]
          have hxlt : chokeScore c' < chokeScore x :=
            hf' ▸ Nat.lt_of_not_le hle
          constructor
          · intro h; simp at h
          · intro c f h
            simp only [Option.some.injEq, Prod.mk.injEq] at h
            obtain ⟨rfl, rfl⟩ := h
            refine ⟨hel', hf', ?_, l1, l2 ++ [x], by rw [hdec]; simp, ?_⟩
            · intro d hd hde
              rcases List.mem_append.mp hd with hdl | hdx
              · exact hmin' d hdl hde
              · simp at hdx; subst hdx; exact le_of_lt hxlt
            · intro d hd hde
              rcases List.mem_append.mp hd with hdl | hdx
              · exact hstrict d hdl hde
              · simp at hdx; subst hdx; exact hxlt
      · have hstep : chokeStep cache grace (some (c', f')) x =
            some (c', f') := by
          simp [chokeStep, hex]
        rw [hstep]
        constructor
        · intro h; simp at h
        · intro c f h
          simp only [Option.some.injEq, Prod.mk.injEq] at h
          obtain ⟨rfl, rfl⟩ := h
          refine ⟨hel', hf', ?_, l1, l2 ++ [x], by rw [hdec]; simp, ?_⟩
          · intro d hd hde
            rcases List.mem_append.mp hd with hdl | hdx
            · exact hmin' d hdl hde
            · simp at hdx; subst hdx; exact absurd hde hex
          · intro d hd hde
            rcases List.mem_append.mp hd with hdl | hdx
            · exact hstrict d hdl hde
            · simp at hdx; subst hdx; exact absurd hde hex

/-- Claim C1 (amended): in a choke cycle tick where canUnchoke() <= 0, the
    unchoke candidate is selected among currently choked connections whose
    peer has expressed interest, as the one with the highest upload rate;
    when several such connections tie on that rate, the last maximal
    element in iteration order over the connection list is selected (the
    scan updates its candidate on ties); when a choke candidate also
    exists, the tick unchokes exactly that connection. -/
theorem unchoke_candidate_selection (d : Download) (c : PeerConnection)
    (f : Nat) (hs : d.canUnchoke ≤ 0)
    (h : selectUnchokeCandidate d.connections = some (c, f)) :
    eligibleUnchoke c = true ∧
    (∀ e ∈ d.connections, eligibleUnchoke e = true →
      e.throttleDownRate ≤ c.throttleDownRate) ∧
    (∃ l1 l2, d.connections = l1 ++ c :: l2 ∧
      ∀ e ∈ l2, eligibleUnchoke e = true →
        e.throttleDownRate < c.throttleDownRate) ∧
    (∀ p1 g, selectChokeCandidate d.timerCache d.chokeGracePeriod
        d.connections = some (p1, g) →
      (d.service ServiceType.CHOKE_CYCLE).1 =
        [Command.insertService (d.timerCache + d.chokeCycle)
           ServiceType.CHOKE_CYCLE,
         Command.choke p1 true, Command.choke c false]) := by
  obtain ⟨hel, hf, hmax, l1, l2, hdec, hstrict⟩ :=
    (selectUnchokeCandidate_spec d.connections).2 c f h
  refine ⟨hel, hmax, ⟨l1, l2, hdec, hstrict⟩, ?_⟩
  intro p1 g hp1
  have hnot : ¬ (d.canUnchoke > 0) := not_lt.mpr hs
  simp [Download.service, hnot, hp1, h]

/-- Claim C1, counterexample to the stated tie break: two choked and
    interested connections share the maximal rate; the scan selects the
    second, not the first. -/
theorem unchoke_tie_goes_to_last_not_first :
    selectUnchokeCandidate [tieUnchokeA, tieUnchokeB] = some (tieUnchokeB, 3) ∧
    tieUnchokeB ≠ tieUnchokeA ∧
    eligibleUnchoke tieUnchokeA = true ∧
    tieUnchokeA.throttleDownRate = tieUnchokeB.throttleDownRate := by
  decide

/-- Claim C1, witness: the section 8 scenario, where the rate 4 connection
    is the unique maximum and is unchoked. -/
theorem unchoke_candidate_selection_witness :
    scenDownload.canUnchoke ≤ 0 ∧
    selectUnchokeCandidate scenDownload.connections = some (scenChoked4, 4) ∧
    (eligibleUnchoke scenChoked4 = true ∧
     (∀ e ∈ scenDownload.connections, eligibleUnchoke e = true →
       e.throttleDownRate ≤ scenChoked4.throttleDownRate) ∧
     (∃ l1 l2, scenDownload.connections = l1 ++ scenChoked4 :: l2 ∧
       ∀ e ∈ l2, eligibleUnchoke e = true →
         e.throttleDownRate < scenChoked4.throttleDownRate) ∧
     (∀ p1 g, selectChokeCandidate scenDownload.timerCache
         scenDownload.chokeGracePeriod scenDownload.connections =
           some (p1, g) →
       (scenDownload.service ServiceType.CHOKE_CYCLE).1 =
         [Command.insertService
            (scenDownload.timerCache + scenDownload.chokeCycle)
            ServiceType.CHOKE_CYCLE,
          Command.choke p1 true, Command.choke scenChoked4 false])) :=
  ⟨by decide, by decide,
   unchoke_candidate_selection scenDownload scenChoked4 4 (by decide)
     (by decide)⟩

/-- Claim C2 (amended): in a choke cycle tick where canUnchoke() <= 0, the
    choke candidate is selected among currently unchoked connections whose
    last choke state change is strictly older than the grace period, as the
    one with the lowest weighted score 16 * downloadRate + uploadRate; when
    several tie on the minimal score, the last minimal element in iteration
    order over the connection list is selected (the scan updates its
    candidate on ties); when an unchoke candidate also exists, the tick
    chokes exactly that connection. -/
theorem choke_candidate_selection (d : Download) (c : PeerConnection)
    (f : Nat) (hs : d.canUnchoke ≤ 0)
    (h : selectChokeCandidate d.timerCache d.chokeGracePeriod
      d.connections = some (c, f)) :
    eligibleChoke d.timerCache d.chokeGracePeriod c = true ∧
    (∀ e ∈ d.connections,
      eligibleChoke d.timerCache d.chokeGracePeriod e = true →
      chokeScore c ≤ chokeScore e) ∧
    (∃ l1 l2, d.connections = l1 ++ c :: l2 ∧
      ∀ e ∈ l2, eligibleChoke d.timerCache d.chokeGracePeriod e = true →
        chokeScore c < chokeScore e) ∧
    (∀ p2 g, selectUnchokeCandidate d.connections = some (p2, g) →
      (d.service ServiceType.CHOKE_CYCLE).1 =
        [Command.insertService (d.timerCache + d.chokeCycle)
           ServiceType.CHOKE_CYCLE,
         Command.choke c true, Command.choke p2 false]) := by
  obtain ⟨hel, hf, hmin, l1, l2, hdec, hstrict⟩ :=
    (selectChokeCandidate_spec d.timerCache d.chokeGracePeriod
      d.connections).2 c f h
  refine ⟨hel, hmin, ⟨l1, l2, hdec, hstrict⟩, ?_⟩
  intro p2 g hp2
  have hnot : ¬ (d.canUnchoke > 0) := not_lt.mpr hs
  simp [Download.service, hnot, hp2, h]

/-- Claim C2, counterexample to the stated tie break: two eligible
    unchoked connections share the minimal weighted score; the scan selects
    the second, not the first. -/
theorem choke_tie_goes_to_last_not_first :
    selectChokeCandidate 1000 100 [tieChokeA, tieChokeB] =
      some (tieChokeB, 16) ∧
    tieChokeB ≠ tieChokeA ∧
    eligibleChoke 1000 100 tieChokeA = true ∧
    chokeScore tieChokeA = chokeScore tieChokeB := by
  decide

/-- Claim C2, witness: the section 8 scenario, where the unchoked score
    100 connection is the unique eligible choke candidate and is choked. -/
theorem choke_candidate_selection_witness :
    scenDownload.canUnchoke ≤ 0 ∧
    selectChokeCandidate scenDownload.timerCache
      scenDownload.chokeGracePeriod scenDownload.connections =
        some (scenUnchoked, 100) ∧
    (eligibleChoke scenDownload.timerCache scenDownload.chokeGracePeriod
       scenUnchoked = true ∧
     (∀ e ∈ scenDownload.connections,
       eligibleChoke scenDownload.timerCache scenDownload.chokeGracePeriod
         e = true →
       chokeScore scenUnchoked ≤ chokeScore e) ∧
     (∃ l1 l2, scenDownload.connections = l1 ++ scenUnchoked :: l2 ∧
       ∀ e ∈ l2, eligibleChoke scenDownload.timerCache
           scenDownload.chokeGracePeriod e = true →
         chokeScore scenUnchoked < chokeScore e) ∧
     (∀ p2 g, selectUnchokeCandidate scenDownload.connections =
         some (p2, g) →
       (scenDownload.service ServiceType.CHOKE_CYCLE).1 =
         [Command.insertService
            (scenDownload.timerCache + scenDownload.chokeCycle)
            ServiceType.CHOKE_CYCLE,
          Command.choke scenUnchoked true, Command.choke p2 false])) :=
  ⟨by decide, by decide,
   choke_candidate_selection scenDownload scenUnchoked 100 (by decide)
     (by decide)⟩

/-- Claim C4: in a choke cycle tick where canUnchoke() > 0, the scheduler
    only reschedules itself; no choke or unchoke command is issued and the
    state is unchanged, regardless of the connection rates. -/
theorem choke_cycle_slack_noop (d : Download) (h : d.canUnchoke > 0) :
    d.service ServiceType.CHOKE_CYCLE =
      ([Command.insertService (d.timerCache + d.chokeCycle)
          ServiceType.CHOKE_CYCLE],
       Except.ok d) := by
  simp [Download.service, h]

/-- Claim C4, witness: a state with canUnchoke() = 1 over the section 8
    connections. -/
theorem choke_cycle_slack_noop_witness :
    slackDownload.canUnchoke > 0 ∧
    slackDownload.service ServiceType.CHOKE_CYCLE =
      ([Command.insertService
          (slackDownload.timerCache + slackDownload.chokeCycle)
          ServiceType.CHOKE_CYCLE],
       Except.ok slackDownload) :=
  ⟨by decide, choke_cycle_slack_noop slackDownload (by decide)⟩

/-- Claim C5: choke and unchoke commands are issued only when both a choke
    candidate and an unchoke candidate exist; when either scan returns no
    candidate the tick only reschedules itself and changes nothing. -/
theorem choke_cycle_both_or_nothing (d : Download) :
    ((selectChokeCandidate d.timerCache d.chokeGracePeriod d.connections =
        none ∨
      selectUnchokeCandidate d.connections = none) →
      d.service ServiceType.CHOKE_CYCLE =
        ([Command.insertService (d.timerCache + d.chokeCycle)
            ServiceType.CHOKE_CYCLE],
         Except.ok d)) ∧
    (∀ p b, Command.choke p b ∈ (d.service ServiceType.CHOKE_CYCLE).1 →
      (∃ x, selectChokeCandidate d.timerCache d.chokeGracePeriod
        d.connections = some x) ∧
      (∃ y, selectUnchokeCandidate d.connections = some y)) := by
  by_cases hu : d.canUnchoke > 0
  · constructor
    · intro _
      simp [Download.service, hu]
    · intro p b hmem
      simp [Download.service, hu] at hmem
  · rcases hc : selectChokeCandidate d.timerCache d.chokeGracePeriod
        d.connections with _ | x
    · constructor
      · intro _
        simp [Download.service, hu, hc]
      · intro p b hmem
        simp [Download.service, hu, hc] at hmem
    · rcases hun : selectUnchokeCandidate d.connections with _ | y
      · constructor
        · intro _
          simp [Download.service, hu, hc, hun]
        · intro p b hmem
          simp [Download.service, hu, hc, hun] at hmem
      · constructor
        · rintro (habs | habs) <;> simp at habs
        · intro p b _
          exact ⟨⟨x, rfl⟩, ⟨y, rfl⟩⟩

/-- Claim C5, witness: a tick with a choke candidate but no choked and
    interested connection takes no action. -/
theorem choke_cycle_both_or_nothing_witness :
    selectUnchokeCandidate oneSidedDownload.connections = none ∧
    selectChokeCandidate oneSidedDownload.timerCache
      oneSidedDownload.chokeGracePeriod oneSidedDownload.connections =
        some (scenUnchoked, 100) ∧
    oneSidedDownload.service ServiceType.CHOKE_CYCLE =
      ([Command.insertService
          (oneSidedDownload.timerCache + oneSidedDownload.chokeCycle)
          ServiceType.CHOKE_CYCLE],
       Except.ok oneSidedDownload) :=
  ⟨by decide, by decide,
   (choke_cycle_both_or_nothing oneSidedDownload).1 (Or.inr (by decide))⟩

/-- Claim C6: when the verification complete event is dispatched with the
    completed chunk count equal to the chunk count but the completion
    bitfield not fully set, the dispatch fails with the invariant violation
    error instead of continuing. -/
theorem hash_completed_bitfield_invariant (d : Download)
    (h1 : d.chunkCompleted = d.chunkCount) (h2 : d.bitfieldAllSet = false) :
    (d.service ServiceType.HASH_COMPLETED).2 =
      Except.error (SessionError.invariantViolation
        "Loaded torrent is done but bitfield is not all set") := by
  simp [Download.service, h1, h2]

/-- Claim C6, witness: a state with five of five chunks completed and an
    incomplete bitfield. -/
theorem hash_completed_bitfield_invariant_witness :
    badBitfieldDownload.chunkCompleted = badBitfieldDownload.chunkCount ∧
    badBitfieldDownload.bitfieldAllSet = false ∧
    (badBitfieldDownload.service ServiceType.HASH_COMPLETED).2 =
      Except.error (SessionError.invariantViolation
        "Loaded torrent is done but bitfield is not all set") :=
  ⟨by decide, by decide,
   hash_completed_bitfield_invariant badBitfieldDownload (by decide)
     (by decide)⟩

/-- Claim C7: start and stop are idempotent; a second call in a row leaves
    the state unchanged and issues no command, so two calls are equivalent
    to one. -/
theorem start_stop_idempotent (d : Download) :
    Download.start (Download.start d).1 = ((Download.start d).1, []) ∧
    Download.stop (Download.stop d).1 = ((Download.stop d).1, []) := by
  constructor
  · by_cases h : d.started <;> simp [Download.start, h]
  · by_cases h : d.started <;> simp [Download.stop, h]

/-- Claim C7, witness: the section 8 scenario state. -/
theorem start_stop_idempotent_witness :
    Download.start (Download.start scenDownload).1 =
      ((Download.start scenDownload).1, []) ∧
    Download.stop (Download.stop scenDownload).1 =
      ((Download.stop scenDownload).1, []) :=
  start_stop_idempotent scenDownload

/-- Claim C9: every choke cycle dispatch issues, as its first command, the
    rescheduling of the next choke cycle at the configured interval after
    the tick time Timer::cache(), whatever else the tick does; and the
    command trace does not depend on the wall clock Timer::current(). -/
theorem choke_cycle_reschedules_first (d : Download) :
    (∃ rest, d.service ServiceType.CHOKE_CYCLE =
      (Command.insertService (d.timerCache + d.chokeCycle)
         ServiceType.CHOKE_CYCLE :: rest,
       Except.ok d)) ∧
    (∀ t, (Download.service { d with timerCurrent := t }
        ServiceType.CHOKE_CYCLE).1 =
      (d.service ServiceType.CHOKE_CYCLE).1) := by
  constructor
  · by_cases hu : d.canUnchoke > 0
    · exact ⟨[], by simp [Download.service, hu]⟩
    · rcases hc : selectChokeCandidate d.timerCache d.chokeGracePeriod
          d.connections with _ | x
      · exact ⟨[], by simp [Download.service, hu, hc]⟩
      · rcases hun : selectUnchokeCandidate d.connections with _ | y
        · exact ⟨[], by simp [Download.service, hu, hc, hun]⟩
        · exact ⟨[Command.choke x.1 true, Command.choke y.1 false],
            by simp [Download.service, hu, hc, hun]⟩
  · intro t
    by_cases hu : d.canUnchoke > 0
    · simp [Download.service, hu]
    · rcases hc : selectChokeCandidate d.timerCache d.chokeGracePeriod
          d.connections with _ | x
      · simp [Download.service, hu, hc]
      · rcases hun : selectUnchokeCandidate d.connections with _ | y
        · simp [Download.service, hu, hc, hun]
        · simp [Download.service, hu, hc, hun]

/-- Claim C9, witness: the section 8 scenario state. -/
theorem choke_cycle_reschedules_first_witness :
    (∃ rest, scenDownload.service ServiceType.CHOKE_CYCLE =
      (Command.insertService
         (scenDownload.timerCache + scenDownload.chokeCycle)
         ServiceType.CHOKE_CYCLE :: rest,
       Except.ok scenDownload)) ∧
    (∀ t, (Download.service { scenDownload with timerCurrent := t }
        ServiceType.CHOKE_CYCLE).1 =
      (scenDownload.service ServiceType.CHOKE_CYCLE).1) :=
  choke_cycle_reschedules_first scenDownload

/-- The admission loop never touches the live connection pool. -/
theorem add_peers_connections (st : AdmissionState) (ps : List Peer) :
    (st.add_peers ps).connections = st.connections := by
  induction ps generalizing st with
  | nil => rfl
  | cons p ps ih =>
    show (AdmissionState.add_peers (admitStep st p) ps).connections =
      st.connections
    rw [ih]
    unfold admitStep
    split <;> rfl

/-- The admission loop never touches the handshake pool. -/
theorem add_peers_handshakes (st : AdmissionState) (ps : List Peer) :
    (st.add_peers ps).handshakes = st.handshakes := by
  induction ps generalizing st with
  | nil => rfl
  | cons p ps ih =>
    show (AdmissionState.add_peers (admitStep st p) ps).handshakes =
      st.handshakes
    rw [ih]
    unfold admitStep
    split <;> rfl

/-- The admission loop appends exactly the addedPeers replay to the back of
    the available pool. -/
theorem add_peers_available (st : AdmissionState) (ps : List Peer) :
    (st.add_peers ps).availablePeers =
      st.availablePeers ++ addedPeers st ps := by
  induction ps generalizing st with
  | nil => simp [AdmissionState.add_peers, addedPeers]
  | cons p ps ih =>
    show (AdmissionState.add_peers (admitStep st p) ps).availablePeers = _
    rw [ih]
    by_cases h : knownPeer st p = true
    · simp [admitStep, addedPeers, h]
    · simp [admitStep, addedPeers, h]

/-- The appended candidates are a sublist of the input list: input order is
    preserved and nothing is added twice. -/
theorem addedPeers_sublist (st : AdmissionState) (ps : List Peer) :
    (addedPeers st ps).Sublist ps := by
  induction ps generalizing st with
  | nil => simp [addedPeers]
  | cons p ps ih =>
    by_cases h : knownPeer st p = true
    · simp only [addedPeers, h, if_true]
      exact List.Sublist.cons p (ih st)
    · simp only [addedPeers]
      rw [if_neg h]
      exact List.Sublist.cons₂ p (ih _)

/-- A candidate unknown after the available pool grew was already unknown
    before. -/
theorem knownPeer_of_extend (st : AdmissionState) (l : List Peer) (p : Peer)
    (h : knownPeer { st with availablePeers := st.availablePeers ++ l } p =
      false) :
    knownPeer st p = false := by
  simp only [knownPeer, List.any_append, Bool.or_eq_false_iff] at h ⊢
  exact ⟨h.1, h.2.1⟩

/-- Every appended candidate was unknown to all three pools of the state
    the call started from. -/
theorem addedPeers_not_known (st : AdmissionState) (ps : List Peer)
    (p : Peer) (hp : p ∈ addedPeers st ps) : knownPeer st p = false := by
  induction ps generalizing st with
  | nil => simp [addedPeers] at hp
  | cons q ps ih =>
    by_cases h : knownPeer st q = true
    · simp only [addedPeers, h, if_true] at hp
      exact ih st hp
    · simp only [addedPeers] at hp
      rw [if_neg h] at hp
      rcases List.mem_cons.mp hp with rfl | hmem
      · exact Bool.eq_false_iff.mpr h
      · exact knownPeer_of_extend st [q] p (ih _ hmem)

/-- No two appended candidates of one call are the same host. -/
theorem addedPeers_pairwise (st : AdmissionState) (ps : List Peer) :
    (addedPeers st ps).Pairwise (fun a b => a.is_same_host b = false) := by
  induction ps generalizing st with
  | nil => simp [addedPeers]
  | cons q ps ih =>
    by_cases h : knownPeer st q = true
    · simp only [addedPeers, h, if_true]
      exact ih st
    · simp only [addedPeers]
      rw [if_neg h]
      refine List.Pairwise.cons ?_ (ih _)
      intro x hx
      have hk := addedPeers_not_known _ ps x hx
      simp only [knownPeer, List.any_append, Bool.or_eq_false_iff] at hk
      have hq := hk.2.2
      simpa using hq

/-- Claim C3: add_peers leaves the connection and handshake pools alone,
    appends the surviving candidates to the back of the available pool in
    input order (a sublist of the input), and a candidate whose host
    matches an entry of any of the three pools is never appended. -/
theorem add_peers_admission (st : AdmissionState) (ps : List Peer) :
    (st.add_peers ps).connections = st.connections ∧
    (st.add_peers ps).handshakes = st.handshakes ∧
    (st.add_peers ps).availablePeers =
      st.availablePeers ++ addedPeers st ps ∧
    (addedPeers st ps).Sublist ps ∧
    (∀ p ∈ addedPeers st ps, knownPeer st p = false) :=
  ⟨add_peers_connections st ps, add_peers_handshakes st ps,
   add_peers_available st ps, addedPeers_sublist st ps,
   fun p hp => addedPeers_not_known st ps p hp⟩

/-- Claim C3, witness: three distinct host candidates against empty pools
    are all admitted, in call order. -/
theorem add_peers_admission_witness :
    (emptyAdmission.add_peers [candA, candB, candC]).availablePeers =
      [candA, candB, candC] ∧
    ((emptyAdmission.add_peers [candA, candB, candC]).connections =
       emptyAdmission.connections ∧
     (emptyAdmission.add_peers [candA, candB, candC]).handshakes =
       emptyAdmission.handshakes ∧
     (emptyAdmission.add_peers [candA, candB, candC]).availablePeers =
       emptyAdmission.availablePeers ++
         addedPeers emptyAdmission [candA, candB, candC] ∧
     (addedPeers emptyAdmission [candA, candB, candC]).Sublist
       [candA, candB, candC] ∧
     (∀ p ∈ addedPeers emptyAdmission [candA, candB, candC],
       knownPeer emptyAdmission p = false)) :=
  ⟨by decide, add_peers_admission emptyAdmission [candA, candB, candC]⟩

/-- Claim C10: within one add_peers call the appended candidates are
    pairwise different hosts: a later candidate with the same host identity
    as an earlier survivor is discarded, so at most one candidate per host
    identity is added per call. -/
theorem add_peers_within_call_dedup (st : AdmissionState) (ps : List Peer) :
    ((st.add_peers ps).availablePeers.drop
        st.availablePeers.length).Pairwise
      (fun a b => a.is_same_host b = false) := by
  rw [add_peers_available st ps, List.drop_left]
  exact addedPeers_pairwise st ps

/-- Claim C10, witness: of two same-host candidates in one call only the
    first is appended. -/
theorem add_peers_within_call_dedup_witness :
    (emptyAdmission.add_peers [candA, candA2, candB]).availablePeers =
      [candA, candB] ∧
    ((emptyAdmission.add_peers [candA, candA2, candB]).availablePeers.drop
        emptyAdmission.availablePeers.length).Pairwise
      (fun a b => a.is_same_host b = false) :=
  ⟨by decide,
   add_peers_within_call_dedup emptyAdmission [candA, candA2, candB]⟩

/-- Claim C8: for every malformed metadata input the constructor fails with
    the metadata error, every acquired resource is released (storage opens
    matched by closes, tracker allocations by releases) and the session
    registry is left unchanged. -/
theorem construct_malformed_metadata (b : Bencode) (registry : List String)
    (h : malformedMeta b = true) :
    (∃ msg, (constructDownload b registry).result =
      Except.error (SessionError.metadataError msg)) ∧
    resourcesReleased (constructDownload b registry).events = true ∧
    (constructDownload b registry).registry = registry := by
  rcases hn : metaName b with e | name
  · refine ⟨⟨"Bad torrent file " ++ e, ?_⟩, ?_, ?_⟩
    · simp [constructDownload, hn]
    · simp only [constructDownload, hn]
      decide
    · simp [constructDownload, hn]
  · rcases ha : metaAnnounce b with e | url
    · refine ⟨⟨"Bad torrent file " ++ e, ?_⟩, ?_, ?_⟩
      · simp [constructDownload, hn, ha]
      · simp only [constructDownload, hn, ha]
        decide
      · simp [constructDownload, hn, ha]
    · exfalso
      simp [malformedMeta, hn, ha, isParseError] at h

/-- Claim C8, witness: metadata missing the info dictionary fails and
    leaves a one-entry registry unchanged; metadata missing the announce
    url is also malformed. -/
theorem construct_malformed_metadata_witness :
    malformedMeta noInfoMeta = true ∧
    ((∃ msg, (constructDownload noInfoMeta ["infohash1"]).result =
        Except.error (SessionError.metadataError msg)) ∧
     resourcesReleased
       (constructDownload noInfoMeta ["infohash1"]).events = true ∧
     (constructDownload noInfoMeta ["infohash1"]).registry =
       ["infohash1"]) ∧
    malformedMeta noAnnounceMeta = true :=
  ⟨by decide,
   construct_malformed_metadata noInfoMeta ["infohash1"] (by decide),
   by decide⟩

end Torrent
